import Mathlib

/-!
Verification of the outbound email dispatch engine (Supabase edge functions).

The definitions below are a shallow embedding of the TypeScript source:
* `supabase/functions/process-queue/index.ts` (dispatch loop, campaign rollup)
* the SES dispatch variants and the raw SMTP dispatch variant
  (`signRequest`, `sendEmailViaSES`, `SmtpClient`, `rewriteLinksForTracking`,
  `updateCampaignStatuses`).

External effects (the store, the network, the clock, randomness and the
crypto primitives) are passed in explicitly, so every embedded operation is
a pure, executable Lean function of its inputs.
-/

/-- One row of the `email_queue` table, as selected by the dispatch engine
(interface `QueueItem` in the source).  `status` is the raw text column
(`"pending" | "sent" | "failed"`), `created_at` is the enqueue timestamp and
`sent_at` / `error_log` are the nullable outcome columns. -/
structure QueueItem where
  id : String
  user_id : String
  campaign_id : String
  contact_id : String
  from_email : String
  to_email : String
  subject : String
  body : String
  status : String
  attempt_count : Nat
  created_at : Nat
  sent_at : Option Nat := none
  error_log : Option String := none
deriving DecidableEq, Repr

/-- One row of the `campaigns` table (only the columns the engine writes). -/
structure Campaign where
  id : String
  status : String
deriving DecidableEq, Repr

/-- Stable insertion into a list ascending by `created_at`. -/
def insertByCreated (x : QueueItem) : List QueueItem → List QueueItem
  | [] => [x]
  | y :: ys =>
    if x.created_at < y.created_at then x :: y :: ys
    else y :: insertByCreated x ys

/-- Stable sort ascending by `created_at` (the store's
`order('created_at', ascending)`). -/
def sortByCreated : List QueueItem → List QueueItem
  | [] => []
  | x :: xs => insertByCreated x (sortByCreated xs)

/-- The pending-email fetch of the dispatch entry points:
`.from('email_queue').select('*').eq('status','pending')
 .order('created_at', ascending true).limit(50)`.
The store is modelled as the list of all queue rows. -/
def fetchPendingBatch (rows : List QueueItem) : List QueueItem :=
  (sortByCreated (rows.filter (fun r => r.status == "pending"))).take 50

/-- Model of the per-campaign count query
`.from('email_queue').select(head:true, count exact).eq('campaign_id', cid)
 .eq('status','pending')`. -/
def countPendingForCampaign (store : List QueueItem) (cid : String) : Nat :=
  (store.filter (fun m => m.campaign_id == cid && m.status == "pending")).length

/-- One step of `updateCampaignStatuses` (SMTP dispatch variant): count the
campaign's remaining pending rows (skipping on a count error), compute
`pending == 0 ? 'completed' : 'sending'` and write it (skipping on an update
error).  `countErr`/`updErr` are the store-failure oracles. -/
def updateCampaignStep (countErr updErr : String → Bool) (store : List QueueItem)
    (camps : List Campaign) (cid : String) : List Campaign :=
  if countErr cid then camps
  else
    let pending := countPendingForCampaign store cid
    let newStatus := if pending = 0 then "completed" else "sending"
    if updErr cid then camps
    else camps.map (fun c => if c.id == cid then { c with status := newStatus } else c)

/-- Model of `updateCampaignStatuses(supabase, campaignIds)`: fold the per-campaign
step over the touched campaign ids. -/
def updateCampaignStatuses (countErr updErr : String → Bool) (store : List QueueItem)
    (camps : List Campaign) (touched : List String) : List Campaign :=
  touched.foldl (updateCampaignStep countErr updErr store) camps

/-- The status the aggregator computes for a touched campaign. -/
def aggregatedStatus (store : List QueueItem) (cid : String) : String :=
  if countPendingForCampaign store cid = 0 then "completed" else "sending"

/- ### Helper lemmas for the fetch (C7) -/

lemma mem_insertByCreated {x m : QueueItem} :
    ∀ {l : List QueueItem}, m ∈ insertByCreated x l → m = x ∨ m ∈ l := by
  intro l
  induction l with
  | nil => intro h; simp [insertByCreated] at h; exact Or.inl h
  | cons y ys ih =>
    intro h
    unfold insertByCreated at h
    by_cases hlt : x.created_at < y.created_at
    · rw [if_pos hlt] at h
      rcases List.mem_cons.mp h with h | h
      · exact Or.inl h
      · exact Or.inr h
    · rw [if_neg hlt] at h
      rcases List.mem_cons.mp h with h | h
      · exact Or.inr (List.mem_cons.mpr (Or.inl h))
      · rcases ih h with h | h
        · exact Or.inl h
        · exact Or.inr (List.mem_cons.mpr (Or.inr h))

lemma mem_sortByCreated {m : QueueItem} :
    ∀ {l : List QueueItem}, m ∈ sortByCreated l → m ∈ l := by
  intro l
  induction l with
  | nil => intro h; simp [sortByCreated] at h
  | cons y ys ih =>
    intro h
    unfold sortByCreated at h
    rcases mem_insertByCreated h with h | h
    · exact h ▸ List.mem_cons_self y ys
    · exact List.mem_cons.mpr (Or.inr (ih h))

lemma pairwise_insertByCreated {x : QueueItem} :
    ∀ {l : List QueueItem},
      l.Pairwise (fun a b => a.created_at ≤ b.created_at) →
      (insertByCreated x l).Pairwise (fun a b => a.created_at ≤ b.created_at) := by
  intro l
  induction l with
  | nil => intro _; simp [insertByCreated]
  | cons y ys ih =>
    intro h
    rcases List.pairwise_cons.mp h with ⟨hy, hys⟩
    unfold insertByCreated
    by_cases hlt : x.created_at < y.created_at
    · rw [if_pos hlt]
      refine List.pairwise_cons.mpr ⟨?_, h⟩
      intro b hb
      rcases List.mem_cons.mp hb with hb | hb
      · subst hb; omega
      · have := hy b hb
        omega
    · rw [if_neg hlt]
      refine List.pairwise_cons.mpr ⟨?_, ih hys⟩
      intro b hb
      rcases mem_insertByCreated hb with hb | hb
      · subst hb; omega
      · exact hy b hb

lemma pairwise_sortByCreated :
    ∀ (l : List QueueItem),
      (sortByCreated l).Pairwise (fun a b => a.created_at ≤ b.created_at) := by
  intro l
  induction l with
  | nil => simp [sortByCreated]
  | cons y ys ih =>
    unfold sortByCreated
    exact pairwise_insertByCreated ih

lemma mem_fetchPendingBatch_pending {rows : List QueueItem} {m : QueueItem}
    (hm : m ∈ fetchPendingBatch rows) : m.status = "pending" := by
  unfold fetchPendingBatch at hm
  have h1 : m ∈ sortByCreated (rows.filter (fun r => r.status == "pending")) :=
    List.mem_of_mem_take hm
  have h2 : m ∈ rows.filter (fun r => r.status == "pending") := mem_sortByCreated h1
  have := List.of_mem_filter h2
  simpa using this

lemma fetchPendingBatch_sorted (rows : List QueueItem) :
    (fetchPendingBatch rows).Pairwise (fun a b => a.created_at ≤ b.created_at) := by
  unfold fetchPendingBatch
  exact List.Pairwise.sublist (List.take_sublist 50 _)
    (pairwise_sortByCreated (rows.filter (fun r => r.status == "pending")))

lemma fetchPendingBatch_length_le (rows : List QueueItem) :
    (fetchPendingBatch rows).length ≤ 50 := by
  unfold fetchPendingBatch
  simp

/- ### Helper lemmas for the aggregator (C4) -/

lemma updateCampaignStep_preserves {countErr updErr : String → Bool}
    {store : List QueueItem} {camps : List Campaign} {cid : String}
    (hP : ∀ c ∈ camps, c.id = cid → c.status = aggregatedStatus store cid)
    (cid' : String) :
    ∀ c ∈ updateCampaignStep countErr updErr store camps cid', c.id = cid →
      c.status = aggregatedStatus store cid := by
  intro c hc hid
  unfold updateCampaignStep at hc
  cases h1 : countErr cid' with
  | true =>
    rw [h1] at hc
    simp only [if_true] at hc
    exact hP c hc hid
  | false =>
    rw [h1] at hc
    simp only [Bool.false_eq_true, if_false] at hc
    cases h2 : updErr cid' with
    | true =>
      rw [h2] at hc
      simp only [if_true] at hc
      exact hP c hc hid
    | false =>
      rw [h2] at hc
      simp only [Bool.false_eq_true, if_false] at hc
      rcases List.mem_map.mp hc with ⟨c0, hc0, rfl⟩
      by_cases h3 : c0.id = cid'
      · have hb : (c0.id == cid') = true := beq_iff_eq.mpr h3
        rw [hb] at hid ⊢
        simp only [if_true] at hid ⊢
        have hid' : c0.id = cid := by simpa using hid
        have : cid' = cid := h3.symm.trans hid'
        subst this
        simp [aggregatedStatus]
      · have hb : (c0.id == cid') = false := beq_eq_false_iff_ne.mpr h3
        rw [hb] at hid ⊢
        simp only [Bool.false_eq_true, if_false] at hid ⊢
        exact hP c0 hc0 hid

lemma updateCampaignStep_sets {countErr updErr : String → Bool}
    {store : List QueueItem} {camps : List Campaign} {cid : String}
    (h1 : countErr cid = false) (h2 : updErr cid = false) :
    ∀ c ∈ updateCampaignStep countErr updErr store camps cid, c.id = cid →
      c.status = aggregatedStatus store cid := by
  intro c hc hid
  unfold updateCampaignStep at hc
  rw [h1, h2] at hc
  simp only [Bool.false_eq_true, if_false] at hc
  rcases List.mem_map.mp hc with ⟨c0, hc0, rfl⟩
  by_cases h3 : c0.id = cid
  · have hb : (c0.id == cid) = true := beq_iff_eq.mpr h3
    rw [hb]
    simp [aggregatedStatus]
  · have hb : (c0.id == cid) = false := beq_eq_false_iff_ne.mpr h3
    rw [hb] at hid
    simp only [Bool.false_eq_true, if_false] at hid
    exact absurd hid h3

lemma updateCampaignStatuses_foldl_preserves {countErr updErr : String → Bool}
    {store : List QueueItem} {cid : String} :
    ∀ (rest : List String) (cs : List Campaign),
      (∀ c ∈ cs, c.id = cid → c.status = aggregatedStatus store cid) →
      ∀ c ∈ rest.foldl (updateCampaignStep countErr updErr store) cs, c.id = cid →
        c.status = aggregatedStatus store cid := by
  intro rest
  induction rest with
  | nil => intro cs hP c hc hid; exact hP c hc hid
  | cons r rs ihr =>
    intro cs hP c hc hid
    simp only [List.foldl_cons] at hc
    exact ihr _ (fun c hc hid => updateCampaignStep_preserves hP r c hc hid) c hc hid

lemma updateCampaignStatuses_foldl_sets {countErr updErr : String → Bool}
    {store : List QueueItem} {cid : String}
    (h1 : countErr cid = false) (h2 : updErr cid = false) :
    ∀ (touched : List String) (camps : List Campaign), cid ∈ touched →
      ∀ c ∈ updateCampaignStatuses countErr updErr store camps touched, c.id = cid →
        c.status = aggregatedStatus store cid := by
  intro touched
  induction touched with
  | nil => intro camps h; exact absurd h (List.not_mem_nil cid)
  | cons t ts ih =>
    intro camps hmem c hc hid
    unfold updateCampaignStatuses at hc
    simp only [List.foldl_cons] at hc
    rcases List.mem_cons.mp hmem with h | h
    · subst h
      by_cases hts : cid ∈ ts
      · exact ih _ hts c hc hid
      · exact updateCampaignStatuses_foldl_preserves ts _
          (updateCampaignStep_sets h1 h2) c hc hid
    · exact ih _ h c hc hid

/- ### The per-email dispatch step (SES dispatch variant / process-queue loop) -/

/-- Return value of `sendEmailViaSES`:
`{ success: boolean; messageId?: string; error?: string }`. -/
structure SesSendResult where
  success : Bool
  messageId : Option String := none
  error : Option String := none
deriving DecidableEq, Repr

/-- The external effects observed while processing one email: the provider
outcome and the behaviour of the two possible store writes.  `sentWriteErr`
is the error of the `status='sent'` update when that write fails;
`failedWriteErr` is true when the `status='failed'` update fails. -/
structure EmailEnv where
  send : SesSendResult
  sentWriteErr : Option String := none
  failedWriteErr : Bool := false
deriving DecidableEq, Repr

/-- JS `x || fallback` on an optional string (falsy on `undefined` and `""`). -/
def orElseStr (x : Option String) (fallback : String) : String :=
  match x with
  | some e => if e = "" then fallback else e
  | none => fallback

/-- One iteration of the per-email processing loop
(`for (const email of pendingEmails)` in the SES dispatch function):

* provider success and the `status='sent'` write succeeds: the row becomes
  `status='sent'`, `sent_at=now`, `attempt_count+1`;
* provider success but the write fails: the loop body throws
  `Failed to update status: ...`, the per-email catch then issues the
  `status='failed'` update (whose own result is not checked);
* provider failure: the body throws `result.error || 'Unknown SES error'`
  and the catch issues the `status='failed'` update.

The function returns the durable row state after the iteration. -/
def processEmail (now : Nat) (env : EmailEnv) (email : QueueItem) : QueueItem :=
  if env.send.success then
    match env.sentWriteErr with
    | none =>
      { email with
        status := "sent"
        sent_at := some now
        attempt_count := email.attempt_count + 1 }
    | some werr =>
      if env.failedWriteErr then email
      else
        { email with
          status := "failed"
          attempt_count := email.attempt_count + 1
          error_log := some ("Failed to update status: " ++ werr) }
  else
    if env.failedWriteErr then email
    else
      { email with
        status := "failed"
        attempt_count := email.attempt_count + 1
        error_log := some (orElseStr env.send.error "Unknown SES error") }

/-- The whole per-email loop: each fetched email is processed with its own
environment; no iteration aborts the loop (every throw inside the body is
caught by the per-email handler). -/
def processBatch (now : Nat) (envs : List EmailEnv) (batch : List QueueItem) : List QueueItem :=
  List.zipWith (fun email env => processEmail now env email) batch envs

/-- The `profiles` columns added by the rate-limit migration
(`hourly_send_limit`, `daily_send_limit`, `emails_sent_this_hour`,
`emails_sent_today`, with their schema defaults). -/
structure Profile where
  hourly_send_limit : Nat := 20
  daily_send_limit : Nat := 100
  emails_sent_this_hour : Nat := 0
  emails_sent_today : Nat := 0
deriving DecidableEq, Repr

/-- Modelled from the spec: the Rate Limiter's admission rule
(allowed iff `sentThisHour < hourlyLimit AND sentToday < dailyLimit`).
The `profiles` schema and the admin Rate Limits screen declare these
counters, but no dispatch entry point under src/ implements or consults
this check. -/
def admissionAllowed (p : Profile) : Bool :=
  decide (p.emails_sent_this_hour < p.hourly_send_limit) &&
    decide (p.emails_sent_today < p.daily_send_limit)

/- ### Helper lemmas for the dispatch step (C1, C2, C9) -/

lemma processEmail_success {now : Nat} {env : EmailEnv} {email : QueueItem}
    (h1 : env.send.success = true) (h2 : env.sentWriteErr = none) :
    processEmail now env email =
      { email with
        status := "sent"
        sent_at := some now
        attempt_count := email.attempt_count + 1 } := by
  unfold processEmail
  rw [h1, h2]
  simp

lemma processEmail_failure {now : Nat} {env : EmailEnv} {email : QueueItem}
    (h1 : env.send.success = false) (h2 : env.failedWriteErr = false) :
    processEmail now env email =
      { email with
        status := "failed"
        attempt_count := email.attempt_count + 1
        error_log := some (orElseStr env.send.error "Unknown SES error") } := by
  unfold processEmail
  rw [h1, h2]
  simp

lemma processEmail_no_pending_write (now : Nat) (env : EmailEnv) (email : QueueItem) :
    (processEmail now env email).status = "pending" → processEmail now env email = email := by
  unfold processEmail
  cases hs : env.send.success with
  | true =>
    cases hw : env.sentWriteErr with
    | none => intro h; simp at h
    | some werr =>
      cases hf : env.failedWriteErr with
      | true => intro _; simp
      | false => intro h; simp at h
  | false =>
    cases hf : env.failedWriteErr with
    | true => intro _; simp
    | false => intro h; simp at h

lemma processBatch_getElem (now : Nat) (envs : List EmailEnv) (batch : List QueueItem)
    (i : Nat) (h : i < (processBatch now envs batch).length) :
    (processBatch now envs batch)[i] =
      processEmail now (envs.get ⟨i, by simp [processBatch] at h; omega⟩)
        (batch.get ⟨i, by simp [processBatch] at h; omega⟩) := by
  simp [processBatch]

lemma processBatch_length (now : Nat) (envs : List EmailEnv) (batch : List QueueItem)
    (h : batch.length ≤ envs.length) :
    (processBatch now envs batch).length = batch.length := by
  simp [processBatch]
  omega

/- ### The raw SMTP client (class SmtpClient in the SMTP dispatch variant) -/

/-- SMTP transport configuration fetched from the `profiles` row
(interface `SmtpConfig`). -/
structure SmtpConfig where
  smtp_host : String
  smtp_port : Nat
  smtp_username : String
  smtp_password : String
  smtp_encryption : String
deriving DecidableEq, Repr

/-- The server replies read during `SmtpClient.connect`, together with a
possible transport-level failure (`Deno.connect`/`Deno.connectTls`/
`Deno.startTls` throwing). -/
structure SmtpServerReplies where
  tcpError : Option String := none
  greeting : String := "220 ok"
  ehloReply : String := "250 ok"
  starttlsReply : String := "220 ok"
  ehloSecureReply : String := "250 ok"
  authReply : String := "334 ok"
  userReply : String := "334 ok"
  passReply : String := "235 ok"
deriving DecidableEq, Repr

/-- JS `s.startsWith(pre)` (list-based so that concrete instances reduce
in the kernel). -/
def strStartsWith (s pre : String) : Bool :=
  pre.toList.isPrefixOf s.toList

/-- JS `s.split(sep)` for a single-character separator. -/
def splitOnCharList (sep : Char) : List Char → List (List Char)
  | [] => [[]]
  | c :: cs =>
    let r := splitOnCharList sep cs
    if c = sep then [] :: r
    else
      match r with
      | [] => [[c]]
      | h :: t => (c :: h) :: t

/-- JS `s.split(sep)` on strings. -/
def jsSplitChar (s : String) (sep : Char) : List String :=
  (splitOnCharList sep s.toList).map String.mk

/-- The AUTH LOGIN phase of `connect`: `AUTH LOGIN` must be answered `334`,
the base64 username `334`, the base64 password `235`; the first non-matching
reply throws. -/
def smtpAuthPhase (srv : SmtpServerReplies) : Except String Unit :=
  if !(strStartsWith srv.authReply "334") then .error ("AUTH LOGIN failed: " ++ srv.authReply)
  else if !(strStartsWith srv.userReply "334") then .error ("Username rejected: " ++ srv.userReply)
  else if !(strStartsWith srv.passReply "235") then .error ("Authentication failed: " ++ srv.passReply)
  else .ok ()

/-- Model of `SmtpClient.connect(config)`: on `ssl` the TLS handshake happens first
and the greeting is read; on `tls` (STARTTLS) the client connects plain,
EHLOs, issues STARTTLS (a non-220 reply throws) and upgrades the socket.
In both modes the client then EHLOs (again) and runs AUTH LOGIN.  A
transport error at any point throws with that error's message. -/
def SmtpClient.connect (config : SmtpConfig) (srv : SmtpServerReplies) : Except String Unit :=
  match srv.tcpError with
  | some e => .error e
  | none =>
    if config.smtp_encryption == "ssl" then
      smtpAuthPhase srv
    else
      if !(strStartsWith srv.starttlsReply "220") then
        .error ("STARTTLS failed: " ++ srv.starttlsReply)
      else
        smtpAuthPhase srv

/-- The per-message server replies read during `SmtpClient.sendEmail`. -/
structure SmtpSendReplies where
  mailReply : String := "250 ok"
  rcptReply : String := "250 ok"
  dataReply : String := "354 go"
  sendReply : String := "250 ok"
deriving DecidableEq, Repr

/-- JS `str.match(/<(.+)>/)?.[1]`: the leftmost `<` from which a greedy,
newline-free, non-empty run reaches a later `>`; the captured group is that
run up to the last such `>`.  Returns `none` when the pattern does not
match. -/
def jsAngleCapture : List Char → Option (List Char)
  | [] => none
  | c :: cs =>
    if c = '<' then
      let r := cs.takeWhile (fun d => !(d = '\n'))
      match ((List.range r.length).filter
          (fun j => decide (1 ≤ j) && (r.get? j == some '>'))).getLast? with
      | some j => some (r.take j)
      | none => jsAngleCapture cs
    else jsAngleCapture cs

/-- Model of `from.match(/<(.+)>/)?.[1] || from` — extract the address from
`"Name <addr>"`, falling back to the whole string. -/
def cleanFromOf (fromAddr : String) : String :=
  match jsAngleCapture fromAddr.toList with
  | some content => String.mk content
  | none => fromAddr

/-- Model of `cleanFrom.split('@')[1]`, with JS `undefined` interpolating as the text
`"undefined"` in template literals. -/
def domainStr (cleanFrom : String) : String :=
  ((jsSplitChar cleanFrom '@').get? 1).getD "undefined"

/-- Model of the sender display ternary on `fromName` (JS truthiness:
an absent or empty name falls back to the bare address, otherwise the
display is the name followed by the bracketed clean address). -/
def senderDisplayOf (fromName : Option String) (cleanFrom : String) : String :=
  match fromName with
  | some n => if n = "" then cleanFrom else n ++ " <" ++ cleanFrom ++ ">"
  | none => cleanFrom

/-- The header block built inside `SmtpClient.sendEmail`.  `uuid` stands for
the `crypto.randomUUID()` draw and `date` for `new Date().toUTCString()`. -/
def smtpHeaders (fromAddr toAddr subject : String) (fromName : Option String)
    (uuid date : String) : List String :=
  let cleanFrom := cleanFromOf fromAddr
  let domain := domainStr cleanFrom
  let messageId := "<" ++ uuid ++ "@" ++ domain ++ ">"
  let senderDisplay := senderDisplayOf fromName cleanFrom
  ["From: " ++ senderDisplay,
   "To: " ++ toAddr,
   "Subject: " ++ subject,
   "Date: " ++ date,
   "Message-ID: " ++ messageId,
   "MIME-Version: 1.0",
   "Content-Type: text/html; charset=UTF-8",
   "Content-Transfer-Encoding: quoted-printable",
   "List-Unsubscribe: <mailto:unsubscribe@" ++ domain ++ ">",
   "X-Mailer: SteadyMail/1.0"]

/-- The body re-encoding in `sendEmail`:
`htmlBody.replace(/\r\n/g, '\n').replace(/\n/g, '\r\n')`. -/
def qpBodyOf (htmlBody : String) : String :=
  (htmlBody.replace "\r\n" "\n").replace "\n" "\r\n"

/-- The full payload written after the `DATA` go-ahead:
`headers.join('\r\n') + '\r\n\r\n' + qpBody + '\r\n.'`. -/
def smtpEmailContent (fromAddr toAddr subject htmlBody : String)
    (fromName : Option String) (uuid date : String) : String :=
  String.intercalate "\r\n" (smtpHeaders fromAddr toAddr subject fromName uuid date)
    ++ "\r\n\r\n" ++ qpBodyOf htmlBody ++ "\r\n."

/-- Model of `SmtpClient.sendEmail`: the `MAIL FROM`/`RCPT TO`/`DATA` replies must be
accepted (`250`/`250`/`354`), the payload is transmitted, and the final
reply must be `250`.  On success it returns the generated Message-ID and
the transmitted payload; any rejected step throws. -/
def SmtpClient.sendEmail (replies : SmtpSendReplies)
    (fromAddr toAddr subject htmlBody : String) (fromName : Option String)
    (uuid date : String) : Except String (String × String) :=
  let cleanFrom := cleanFromOf fromAddr
  let domain := domainStr cleanFrom
  if !(strStartsWith replies.mailReply "250") then .error ("MAIL FROM failed: " ++ replies.mailReply)
  else if !(strStartsWith replies.rcptReply "250") then .error ("RCPT TO failed: " ++ replies.rcptReply)
  else if !(strStartsWith replies.dataReply "354") then .error ("DATA failed: " ++ replies.dataReply)
  else if !(strStartsWith replies.sendReply "250") then .error ("Send failed: " ++ replies.sendReply)
  else .ok ("<" ++ uuid ++ "@" ++ domain ++ ">",
            smtpEmailContent fromAddr toAddr subject htmlBody fromName uuid date)

/-- Mark a whole account group failed (the `for (const email of emails)`
loops in the missing-config and connect-failure branches). -/
def markGroupFailed (reason : String) (emails : List QueueItem) : List QueueItem :=
  emails.map (fun e =>
    { e with
      status := "failed"
      attempt_count := e.attempt_count + 1
      error_log := some reason })

/-- The per-account group processing of the SMTP dispatch variant:
missing SMTP config fails the whole group with the configuration message;
a `connect` throw fails the whole group with `SMTP connection error: ...`;
otherwise every message of the group is sent on the shared connection, each
with its own `sendEmail` outcome (a per-message throw marks only that
message failed and the loop continues). -/
def processUserGroup (profileOk : Bool) (connectRes : Except String Unit)
    (sends : List (Except String String)) (now : Nat)
    (emails : List QueueItem) : List QueueItem :=
  if !profileOk then
    markGroupFailed "SMTP not configured. Please set up your SMTP credentials in Settings." emails
  else
    match connectRes with
    | .error errMsg => markGroupFailed ("SMTP connection error: " ++ errMsg) emails
    | .ok _ =>
      List.zipWith (fun e r =>
        match r with
        | .ok _ =>
          { e with
            status := "sent"
            attempt_count := e.attempt_count + 1
            sent_at := some now }
        | .error errMsg =>
          { e with
            status := "failed"
            attempt_count := e.attempt_count + 1
            error_log := some errMsg }) emails sends

/- ### AWS Signature Version 4 (signRequest in the SES dispatch variants) -/

/-- The Web Crypto primitives the signer delegates to
(`crypto.subtle.digest('SHA-256', ...)` and HMAC-SHA256 signing).  They are
platform primitives, not code of this repository, so they are abstract
byte-level functions here; bytes are lists of naturals. -/
structure CryptoPrimitives where
  sha256Raw : List Nat → List Nat
  hmacRaw : List Nat → List Nat → List Nat

/-- Model of `new TextEncoder().encode(s)`. -/
def utf8Bytes (s : String) : List Nat :=
  s.toUTF8.toList.map (fun b => b.toNat)

/-- One hex digit, lowercase (`b.toString(16)`). -/
def hexDigit (n : Nat) : Char :=
  if n < 10 then Char.ofNat (48 + n) else Char.ofNat (87 + n)

/-- Model of `b.toString(16).padStart(2, '0')` for a byte. -/
def byteToHex (b : Nat) : String :=
  String.mk [hexDigit (b / 16 % 16), hexDigit (b % 16)]

/-- Model of the byte-array hex join used by the signer helpers. -/
def toHexString (bs : List Nat) : String :=
  String.join (bs.map byteToHex)

/-- The source's `sha256(message)` helper: hex digest of the UTF-8 bytes. -/
def sha256Hex (C : CryptoPrimitives) (message : String) : String :=
  toHexString (C.sha256Raw (utf8Bytes message))

/-- The source's `hmacSha256(key, message)` with a string key. -/
def hmacStrKey (C : CryptoPrimitives) (key message : String) : List Nat :=
  C.hmacRaw (utf8Bytes key) (utf8Bytes message)

/-- Model of `new URL(url).host` for the `https://...` endpoints built by the
adapters. -/
def urlHost (url : String) : String :=
  (((url.drop 8).splitOn "/").headD "")

/-- Model of `new URL(url).pathname` for the `https://...` endpoints built by the
adapters. -/
def urlPath (url : String) : String :=
  "/" ++ String.intercalate "/" (((url.drop 8).splitOn "/").tail)

/-- The canonical request of `signRequest`:
`method + '\n' + path + '\n\n' + canonicalHeaders + '\n' + signedHeaders +
'\n' + bodyHash` with the fixed header list
`content-type`, `host`, `x-amz-date`. -/
def canonicalRequestOf (C : CryptoPrimitives)
    (method url contentTypeHeader body amzDate : String) : String :=
  let host := urlHost url
  let path := urlPath url
  let canonicalHeaders :=
    "content-type:" ++ contentTypeHeader ++ "\nhost:" ++ host ++ "\nx-amz-date:" ++ amzDate ++ "\n"
  let signedHeaders := "content-type;host;x-amz-date"
  let bodyHash := sha256Hex C body
  method ++ "\n" ++ path ++ "\n\n" ++ canonicalHeaders ++ "\n" ++ signedHeaders ++ "\n" ++ bodyHash

/-- Lines 80-91 of the signer: the string-to-sign and the chained
`AWS4-HMAC-SHA256` key derivation, ending in the hex-encoded signature.
`amzDate` stands for the `new Date()` reading formatted as
`YYYYMMDD'T'HHMMSS'Z'`; `dateStamp` is its first eight characters. -/
def awsSignature (C : CryptoPrimitives)
    (method url contentTypeHeader body secretAccessKey region service amzDate : String) : String :=
  let dateStamp := String.mk (amzDate.toList.take 8)
  let canonicalRequest := canonicalRequestOf C method url contentTypeHeader body amzDate
  let algorithm := "AWS4-HMAC-SHA256"
  let credentialScope := dateStamp ++ "/" ++ region ++ "/" ++ service ++ "/aws4_request"
  let canonicalRequestHash := sha256Hex C canonicalRequest
  let stringToSign := algorithm ++ "\n" ++ amzDate ++ "\n" ++ credentialScope ++ "\n" ++ canonicalRequestHash
  let kDate := hmacStrKey C ("AWS4" ++ secretAccessKey) dateStamp
  let kRegion := C.hmacRaw kDate (utf8Bytes region)
  let kService := C.hmacRaw kRegion (utf8Bytes service)
  let kSigning := C.hmacRaw kService (utf8Bytes "aws4_request")
  toHexString (C.hmacRaw kSigning (utf8Bytes stringToSign))

/-- The headers returned by `signRequest` (spread of the input headers plus
`Host`, `X-Amz-Date` and `Authorization`). -/
structure SignedRequestHeaders where
  contentType : String
  host : String
  xAmzDate : String
  authorization : String
deriving DecidableEq, Repr

/-- Model of `signRequest(method, url, headers, body, accessKeyId, secretAccessKey,
region, service)`: assembles the Authorization header
`AWS4-HMAC-SHA256 Credential=<akid>/<scope>, SignedHeaders=..., Signature=<sig>`
around the derived signature. -/
def signRequest (C : CryptoPrimitives)
    (method url contentTypeHeader body accessKeyId secretAccessKey region service amzDate :
      String) : SignedRequestHeaders :=
  let host := urlHost url
  let algorithm := "AWS4-HMAC-SHA256"
  let dateStamp := String.mk (amzDate.toList.take 8)
  let credentialScope := dateStamp ++ "/" ++ region ++ "/" ++ service ++ "/aws4_request"
  let signedHeaders := "content-type;host;x-amz-date"
  let signature := awsSignature C method url contentTypeHeader body secretAccessKey region service amzDate
  { contentType := contentTypeHeader
    host := host
    xAmzDate := amzDate
    authorization :=
      algorithm ++ " Credential=" ++ accessKeyId ++ "/" ++ credentialScope
        ++ ", SignedHeaders=" ++ signedHeaders ++ ", Signature=" ++ signature }

/-- The signature exactly as the spec words it: string-to-sign from the
algorithm id, the timestamp, the credential scope and the hash of the
canonical request; signing key by chained keyed-hashing over the date
stamp, the region, the service and the fixed suffix `aws4_request`, seeded
from `AWS4` + secret; final signature hex-encoded. -/
def specSigV4Signature (C : CryptoPrimitives)
    (secret dateStamp region service amzDate canonicalRequest : String) : String :=
  let scope := dateStamp ++ "/" ++ region ++ "/" ++ service ++ "/aws4_request"
  let stringToSign :=
    "AWS4-HMAC-SHA256" ++ "\n" ++ amzDate ++ "\n" ++ scope ++ "\n" ++ sha256Hex C canonicalRequest
  let kSigning :=
    C.hmacRaw (C.hmacRaw (C.hmacRaw (C.hmacRaw (utf8Bytes ("AWS4" ++ secret))
      (utf8Bytes dateStamp)) (utf8Bytes region)) (utf8Bytes service)) (utf8Bytes "aws4_request")
  toHexString (C.hmacRaw kSigning (utf8Bytes stringToSign))

lemma awsSignature_eq_spec (C : CryptoPrimitives)
    (method url contentTypeHeader body secret region service amzDate : String) :
    awsSignature C method url contentTypeHeader body secret region service amzDate =
      specSigV4Signature C secret (String.mk (amzDate.toList.take 8)) region service amzDate
        (canonicalRequestOf C method url contentTypeHeader body amzDate) := by
  rfl

/- ### The tracking injector (rewriteLinksForTracking and the beacon) -/

/-- The single-quote character (codepoint 39). -/
def squoteChar : Char := Char.ofNat 39

/-- The character class `["']` of the link regex. -/
def isQuoteCh (c : Char) : Bool := c = '"' || c = squoteChar

/-- JS `\s` on the characters relevant to HTML bodies
(space, tab, newline, carriage return, vertical tab, form feed). -/
def isJsSpace (c : Char) : Bool :=
  c = ' ' || c = '\t' || c = '\n' || c = '\r' || c = Char.ofNat 11 || c = Char.ofNat 12

/-- Does `href=` (case-insensitive) followed by a quote start at offset `j`
of `p`?  This is the mandatory literal part of group 1 of
`/<a\s+([^>]*href=["'])([^"']+)(["'][^>]*)>/gi`. -/
def isHrefAt (p : List Char) (j : Nat) : Bool :=
  match p.drop j with
  | c1 :: c2 :: c3 :: c4 :: c5 :: c6 :: _ =>
    (c1.toLower = 'h') && (c2.toLower = 'r') && (c3.toLower = 'e') && (c4.toLower = 'f')
      && (c5 = '=') && isQuoteCh c6
  | _ => false

/-- Attempt to match groups 1-3 and the closing `>` of the link regex
starting at `p`, with group 1's `[^>]*` consuming exactly `j` characters:
group 1 is `p.take (j+6)` (the `[^>]*` run, `href=` and the opening quote),
group 2 is the maximal non-empty quote-free run after it, group 3 is the
next quote plus the maximal `>`-free run, and the match ends at the
following `>`. -/
def matchBodyAt (p : List Char) (j : Nat) :
    Option (List Char × List Char × List Char × List Char) :=
  if (p.take j).all (fun c => !(c = '>')) && isHrefAt p j then
    let before := p.take (j + 6)
    let t := p.drop (j + 6)
    let url := t.takeWhile (fun c => !(isQuoteCh c))
    let t2 := t.dropWhile (fun c => !(isQuoteCh c))
    if url.isEmpty then none
    else
      match t2 with
      | [] => none
      | q2 :: r3 =>
        let g3 := r3.takeWhile (fun c => !(c = '>'))
        match r3.dropWhile (fun c => !(c = '>')) with
        | [] => none
        | _ :: rest4 => some (before, url, q2 :: g3, rest4)
  else none

/-- Greedy backtracking over group 1's `[^>]*`: the regex engine prefers
the longest `[^>]*` run, so candidate offsets are tried largest-first. -/
def findMatchBody (p : List Char) :
    Option (List Char × List Char × List Char × List Char) :=
  ((List.range p.length).reverse).findSome? (fun j => matchBodyAt p j)

/-- One full match of `/<a\s+([^>]*href=["'])([^"']+)(["'][^>]*)>/gi`:
the `a`/`A` after `<`, the `\s+` run, the three capture groups, and the
input remaining after the closing `>`. -/
structure AnchorMatchData where
  aChar : Char
  ws : List Char
  before : List Char
  url : List Char
  after : List Char
  rest : List Char
deriving DecidableEq, Repr

/-- Try to match the link regex at the head of the input. -/
def tryAnchorMatch : List Char → Option AnchorMatchData
  | [] => none
  | [_] => none
  | lt :: a :: r =>
    if lt = '<' && (a = 'a' || a = 'A') then
      let ws := r.takeWhile isJsSpace
      if ws.isEmpty then none
      else
        let p := r.dropWhile isJsSpace
        match findMatchBody p with
        | some (before, url, after, rest4) =>
          some ⟨a, ws, before, url, after, rest4⟩
        | none => none
    else none

/-- The original text consumed by a match
(`match` in the replace callback). -/
def matchText (m : AnchorMatchData) : List Char :=
  '<' :: m.aChar :: (m.ws ++ m.before ++ m.url ++ m.after ++ ['>'])

/-- A segment of the scanned HTML: a character outside any match, or one
anchor-tag match. -/
inductive HtmlSeg where
  | chr (c : Char)
  | anchor (m : AnchorMatchData)
deriving DecidableEq, Repr

/-- The `String.replace(regex, cb)` scan: find the leftmost match, emit it,
continue after it (`lastIndex` advances past the match); on no match at the
current position advance one character.  `fuel` bounds the recursion; any
`fuel ≥ input length` is exact because a match consumes at least one
character. -/
def scanAnchors : Nat → List Char → List HtmlSeg
  | 0, cs => cs.map HtmlSeg.chr
  | _ + 1, [] => []
  | fuel + 1, c :: cs =>
    match tryAnchorMatch (c :: cs) with
    | some m => HtmlSeg.anchor m :: scanAnchors fuel m.rest
    | none => HtmlSeg.chr c :: scanAnchors fuel cs

/-- The text a segment stood for in the input. -/
def segText : HtmlSeg → List Char
  | HtmlSeg.chr c => [c]
  | HtmlSeg.anchor m => matchText m

/-- JS `hay.includes(needle)`. -/
def listIncludes (needle : List Char) : List Char → Bool
  | [] => needle.isEmpty
  | c :: t => needle.isPrefixOf (c :: t) || listIncludes needle t

/-- JS `hay.includes(needle)` on strings. -/
def strIncludes (hay needle : String) : Bool :=
  listIncludes needle.toList hay.toList

/-- The skip test of the replace callback:
`url.includes('track-open') || url.includes('track-click') ||
url.startsWith('mailto:')`. -/
def isSkippedUrl (url : String) : Bool :=
  strIncludes url "track-open" || strIncludes url "track-click" || strStartsWith url "mailto:"

/-- An uppercase hex digit. -/
def hexDigitUpper (n : Nat) : Char :=
  if n < 10 then Char.ofNat (48 + n) else Char.ofNat (55 + n)

/-- Characters `encodeURIComponent` leaves unescaped. -/
def isUnreservedURI (c : Char) : Bool :=
  (decide ('A' ≤ c) && decide (c ≤ 'Z')) || (decide ('a' ≤ c) && decide (c ≤ 'z'))
    || (decide ('0' ≤ c) && decide (c ≤ '9'))
    || c = '-' || c = '_' || c = '.' || c = '!' || c = '~' || c = '*' || c = squoteChar
    || c = '(' || c = ')'

/-- JS `encodeURIComponent`: unreserved characters pass through, everything
else is percent-encoded from its UTF-8 bytes, uppercase hex. -/
def encodeURIComponent (s : String) : String :=
  String.join (s.toList.map (fun c =>
    if isUnreservedURI c then String.mk [c]
    else String.join (((String.mk [c]).toUTF8.toList.map (fun b => b.toNat)).map
      (fun b => String.mk ['%', hexDigitUpper (b / 16 % 16), hexDigitUpper (b % 16)]))))

/-- The replacement URL
`${supabaseUrl}/functions/v1/track-click?id=${emailQueueId}&url=${encodeURIComponent(url)}`. -/
def trackClickUrl (supabaseUrl emailQueueId url : String) : String :=
  supabaseUrl ++ "/functions/v1/track-click?id=" ++ emailQueueId ++ "&url="
    ++ encodeURIComponent url

/-- The replace callback applied to one segment: text outside matches is
copied; a match with a skipped URL is returned verbatim; any other match
becomes `<a ${before}${trackingUrl}${after}>`. -/
def renderSeg (emailQueueId supabaseUrl : String) : HtmlSeg → String
  | HtmlSeg.chr c => String.mk [c]
  | HtmlSeg.anchor m =>
    if isSkippedUrl (String.mk m.url) then String.mk (matchText m)
    else
      "<a " ++ String.mk m.before
        ++ trackClickUrl supabaseUrl emailQueueId (String.mk m.url)
        ++ String.mk m.after ++ ">"

/-- Model of `rewriteLinksForTracking(html, emailQueueId, supabaseUrl)`. -/
def rewriteLinksForTracking (html emailQueueId supabaseUrl : String) : String :=
  String.join ((scanAnchors html.toList.length html.toList).map
    (renderSeg emailQueueId supabaseUrl))

/-- The invisible beacon image appended before link rewriting:
`<img src="${supabaseUrl}/functions/v1/track-open?id=${email.id}"
 width="1" height="1" style="display:none" alt="" />`. -/
def trackingPixelImg (emailId supabaseUrl : String) : String :=
  "<img src=\"" ++ supabaseUrl ++ "/functions/v1/track-open?id=" ++ emailId
    ++ "\" width=\"1\" height=\"1\" style=\"display:none\" alt=\"\" />"

/-- The tracking injection performed on each email body before the provider
send: append the beacon, then rewrite the links. -/
def buildTrackedBody (body emailId supabaseUrl : String) : String :=
  rewriteLinksForTracking (body ++ trackingPixelImg emailId supabaseUrl) emailId supabaseUrl

/- ### Helper lemmas for the link rewriter (C6, C10) -/

lemma dropWhile_head_false {α : Type} {q : α → Bool} :
    ∀ (l : List α) {x : α} {xs : List α}, l.dropWhile q = x :: xs → q x = false := by
  intro l
  induction l with
  | nil => intro x xs h; simp at h
  | cons c t ih =>
    intro x xs h
    rw [List.dropWhile_cons] at h
    by_cases hq : q c
    · rw [if_pos hq] at h
      exact ih h
    · rw [if_neg hq] at h
      cases h
      simpa using hq

lemma matchBodyAt_eq {p : List Char} {j : Nat} {b u a r4 : List Char}
    (h : matchBodyAt p j = some (b, u, a, r4)) :
    p = b ++ u ++ a ++ '>' :: r4 := by
  unfold matchBodyAt at h
  split at h
  case isFalse => exact absurd h (by simp)
  case isTrue hcond =>
    simp only at h
    split at h
    case isTrue => exact absurd h (by simp)
    case isFalse hne =>
      split at h
      case h_1 => exact absurd h (by simp)
      case h_2 q2 r3 ht2 =>
        split at h
        case h_1 => exact absurd h (by simp)
        case h_2 gt rest4 hdrop =>
          have hgt : (fun c => !(c = '>')) gt = false := dropWhile_head_false r3 hdrop
          have hgt' : gt = '>' := by simpa using hgt
          cases h
          rw [hgt'] at hdrop
          have e1 := List.take_append_drop (j + 6) p
          have e2 := List.takeWhile_append_dropWhile (fun c => !(isQuoteCh c)) (p.drop (j + 6))
          have e3 := List.takeWhile_append_dropWhile (fun c => !(c = '>')) r3
          rw [hdrop] at e3
          conv_lhs => rw [← e1, ← e2, ht2, ← e3]
          simp [List.append_assoc]

lemma findMatchBody_eq {p : List Char} {b u a r4 : List Char}
    (h : findMatchBody p = some (b, u, a, r4)) :
    p = b ++ u ++ a ++ '>' :: r4 := by
  unfold findMatchBody at h
  obtain ⟨j, _, hj⟩ := List.exists_of_findSome?_eq_some h
  exact matchBodyAt_eq hj

lemma tryAnchorMatch_eq : ∀ {cs : List Char} {m : AnchorMatchData},
    tryAnchorMatch cs = some m → cs = matchText m ++ m.rest := by
  intro cs m h
  match cs with
  | [] => exact absurd h (by simp [tryAnchorMatch])
  | [x] => exact absurd h (by simp [tryAnchorMatch])
  | lt :: a :: r =>
    simp only [tryAnchorMatch] at h
    split at h
    case isFalse => exact absurd h (by simp)
    case isTrue hcond =>
      split at h
      case isTrue => exact absurd h (by simp)
      case isFalse hws =>
        split at h
        case h_2 => exact absurd h (by simp)
        case h_1 b u aft r4 hfind =>
          cases h
          have hlt : lt = '<' := by
            have := hcond
            simp only [Bool.and_eq_true, decide_eq_true_eq] at this
            exact this.1
          have hp : r.dropWhile isJsSpace = b ++ u ++ aft ++ '>' :: r4 :=
            findMatchBody_eq hfind
          have hr : r.takeWhile isJsSpace ++ r.dropWhile isJsSpace = r :=
            List.takeWhile_append_dropWhile _ _
          subst hlt
          have hrr : r = List.takeWhile isJsSpace r ++ (b ++ (u ++ (aft ++ '>' :: r4))) := by
            conv_lhs => rw [← hr, hp]
            simp [List.append_assoc]
          simp only [matchText]
          conv_lhs => rw [hrr]
          simp [List.append_assoc]

lemma matchText_length_pos (m : AnchorMatchData) : 0 < (matchText m).length := by
  simp [matchText]

lemma tryAnchorMatch_rest_lt {cs : List Char} {m : AnchorMatchData}
    (h : tryAnchorMatch cs = some m) : m.rest.length < cs.length := by
  have he := tryAnchorMatch_eq h
  have : cs.length = (matchText m).length + m.rest.length := by
    rw [he, List.length_append]
  have hpos := matchText_length_pos m
  omega

lemma scanAnchors_text : ∀ (fuel : Nat) (cs : List Char), cs.length ≤ fuel →
    ((scanAnchors fuel cs).map segText).flatten = cs := by
  intro fuel
  induction fuel with
  | zero =>
    intro cs hl
    have : cs = [] := List.length_eq_zero.mp (Nat.le_zero.mp hl)
    subst this
    simp [scanAnchors]
  | succ fuel ih =>
    intro cs hl
    match cs with
    | [] => simp [scanAnchors]
    | c :: cs' =>
      unfold scanAnchors
      cases hm : tryAnchorMatch (c :: cs') with
      | some m =>
        have hrest : m.rest.length ≤ fuel := by
          have := tryAnchorMatch_rest_lt hm
          simp only [List.length_cons] at this hl
          omega
        simp only [List.map_cons, List.flatten_cons, ih m.rest hrest]
        rw [segText, ← tryAnchorMatch_eq hm]
      | none =>
        have hlen : cs'.length ≤ fuel := by
          simp only [List.length_cons] at hl
          omega
        simp only [List.map_cons, List.flatten_cons, ih cs' hlen]
        rw [segText]
        simp

/- ### Demo values used by witnesses -/

/-- A concrete pending queue row. -/
def demoEmail : QueueItem :=
  { id := "e1"
    user_id := "u1"
    campaign_id := "c1"
    contact_id := "ct1"
    from_email := "Bob <bob@mail.com>"
    to_email := "to@x.com"
    subject := "Hi"
    body := "<p>hello</p>"
    status := "pending"
    attempt_count := 0
    created_at := 5 }

/-- A concrete already-sent queue row of the same campaign. -/
def demoSentEmail : QueueItem :=
  { demoEmail with
    id := "e0"
    status := "sent"
    created_at := 3 }

/-- The `profiles` rate-limit columns with the hourly counter already at the
hourly limit. -/
def overLimitProfile : Profile :=
  { hourly_send_limit := 20
    daily_send_limit := 100
    emails_sent_this_hour := 20
    emails_sent_today := 0 }

/-- A per-email environment where the provider succeeds and both store
writes succeed. -/
def okEnv : EmailEnv := { send := { success := true, messageId := some "mid-1" } }

/-- A per-email environment where the provider succeeds, the sent-write
fails and the follow-up failed-write succeeds. -/
def sentWriteFailEnv : EmailEnv :=
  { send := { success := true, messageId := some "mid-1" }
    sentWriteErr := some "row locked" }

/- ### C7 — the queue fetcher -/

/-- C7: the queue fetcher returns only messages with status `pending`,
ordered oldest-enqueued-first by creation timestamp, and returns at most
50 messages per invocation. -/
theorem fetch_pending_fifo_capped (rows : List QueueItem) (m : QueueItem)
    (hm : m ∈ fetchPendingBatch rows) :
    m.status = "pending"
  ∧ (fetchPendingBatch rows).Pairwise (fun a b => a.created_at ≤ b.created_at)
  ∧ (fetchPendingBatch rows).length ≤ 50 :=
  ⟨mem_fetchPendingBatch_pending hm, fetchPendingBatch_sorted rows,
   fetchPendingBatch_length_le rows⟩

theorem fetch_pending_fifo_capped_witness :
    demoEmail ∈ fetchPendingBatch [demoSentEmail, demoEmail]
  ∧ demoEmail.status = "pending" :=
  ⟨by decide, (fetch_pending_fifo_capped [demoSentEmail, demoEmail] demoEmail (by decide)).1⟩

/- ### C4 — the campaign status aggregator -/

/-- C4: after processing a batch, each touched campaign whose count and
update queries succeed is set to `completed` exactly when zero of its
messages remain pending, and to `sending` otherwise. -/
theorem campaign_status_aggregation (countErr updErr : String → Bool)
    (store : List QueueItem) (camps : List Campaign) (touched : List String)
    (cid : String) (c : Campaign)
    (h1 : countErr cid = false) (h2 : updErr cid = false) (hmem : cid ∈ touched)
    (hc : c ∈ updateCampaignStatuses countErr updErr store camps touched)
    (hid : c.id = cid) :
    (c.status = "completed" ↔ countPendingForCampaign store cid = 0)
  ∧ (c.status = "sending" ↔ countPendingForCampaign store cid ≠ 0) := by
  have hset := updateCampaignStatuses_foldl_sets h1 h2 touched camps hmem c hc hid
  unfold aggregatedStatus at hset
  by_cases h : countPendingForCampaign store cid = 0
  · rw [if_pos h] at hset
    rw [hset]
    simp [h]
  · rw [if_neg h] at hset
    rw [hset]
    simp [h]

theorem campaign_status_aggregation_witness :
    ({ id := "c1", status := "completed" } : Campaign) ∈
      updateCampaignStatuses (fun _ => false) (fun _ => false) [demoSentEmail]
        [{ id := "c1", status := "queued" }] ["c1"]
  ∧ ({ id := "c1", status := "completed" } : Campaign).status = "completed" := by
  refine ⟨by decide, ?_⟩
  exact (campaign_status_aggregation (fun _ => false) (fun _ => false) [demoSentEmail]
    [{ id := "c1", status := "queued" }] ["c1"] "c1" { id := "c1", status := "completed" }
    rfl rfl (by decide) (by decide) rfl).1.mpr (by decide)

/- ### C1 — the admission rule is not enforced by the dispatch loop -/

/-- C1: the spec's admission rule (a message is attempted only when
`sentThisHour < hourlyLimit` and `sentToday < dailyLimit`) is violated by
the dispatch loop: with the hourly counter already equal to the hourly
limit — so admission is denied — the pending message is still handed to
the provider adapter, charged an attempt and marked sent instead of being
left pending.  The per-email loop takes no rate-limit state at all. -/
theorem rate_limit_not_enforced_at_over_limit :
    admissionAllowed overLimitProfile = false
  ∧ demoEmail.status = "pending"
  ∧ (processEmail 1000 okEnv demoEmail).status = "sent"
  ∧ (processEmail 1000 okEnv demoEmail).attempt_count = demoEmail.attempt_count + 1 := by
  refine ⟨by decide, by decide, by decide, by decide⟩

/- ### C2 — per-message outcome recording -/

/-- C2: a successful send attempt sets status `sent`, sets `sent_at` to the
current time and increments the attempt count by exactly one; a failed
attempt sets status `failed`, increments the attempt count by exactly one
and stores the provider-reported reason as the error text; and the engine
never writes a message back to `pending`. -/
theorem outcome_recording_correct (now : Nat) (env : EmailEnv) (email : QueueItem) :
    (env.send.success = true → env.sentWriteErr = none →
      processEmail now env email =
        { email with
          status := "sent"
          sent_at := some now
          attempt_count := email.attempt_count + 1 })
  ∧ (∀ reason, env.send.success = false → env.send.error = some reason → reason ≠ "" →
      env.failedWriteErr = false →
      processEmail now env email =
        { email with
          status := "failed"
          attempt_count := email.attempt_count + 1
          error_log := some reason })
  ∧ ((processEmail now env email).status = "pending" → processEmail now env email = email) := by
  refine ⟨fun h1 h2 => processEmail_success h1 h2, ?_, processEmail_no_pending_write now env email⟩
  intro reason h1 herr hne h2
  rw [processEmail_failure h1 h2, herr]
  simp [orElseStr, hne]

theorem outcome_recording_correct_witness :
    processEmail 7 { send := { success := false, error := some "Mailbox full" } } demoEmail
      = { demoEmail with
          status := "failed"
          attempt_count := demoEmail.attempt_count + 1
          error_log := some "Mailbox full" } :=
  (outcome_recording_correct 7 { send := { success := false, error := some "Mailbox full" } }
    demoEmail).2.1 "Mailbox full" rfl rfl (by decide) rfl

/- ### C9 — outcome-write failure (corrected) -/

/-- C9 counterexample to the claim as stated: when the `status='sent'` write
fails after a successful send, the loop's catch handler marks the row
`failed` (when that second write succeeds) — the row does not remain
pending, so it is not re-attempted by a later invocation's pending fetch. -/
theorem outcome_write_failure_counterexample :
    (processEmail 9 sentWriteFailEnv demoEmail).status = "failed"
  ∧ ¬((processEmail 9 sentWriteFailEnv demoEmail).status = "pending")
  ∧ fetchPendingBatch [processEmail 9 sentWriteFailEnv demoEmail] = [] := by
  refine ⟨by decide, by decide, by decide⟩

/-- C9 (amended): a store write failure while recording one message's
outcome does not abort the batch — every message of the batch is still
processed, each from its own environment only; the message whose sent-write
failed is marked `failed` when the follow-up failed-write succeeds, and
remains `pending` (eligible for a later re-attempt) only when that write
fails as well. -/
theorem outcome_write_failure_batch_continues (now : Nat) (envs : List EmailEnv)
    (batch : List QueueItem) (h : batch.length ≤ envs.length) :
    ((processBatch now envs batch).length = batch.length)
  ∧ (∀ i (hi : i < (processBatch now envs batch).length),
      (processBatch now envs batch)[i] =
        processEmail now (envs.get ⟨i, by simp [processBatch] at hi; omega⟩)
          (batch.get ⟨i, by simp [processBatch] at hi; omega⟩))
  ∧ (∀ env email werr, env.send.success = true → env.sentWriteErr = some werr →
      env.failedWriteErr = false →
      (processEmail now env email).status = "failed")
  ∧ (∀ env email werr, env.send.success = true → env.sentWriteErr = some werr →
      env.failedWriteErr = true →
      processEmail now env email = email ∧ email.status = email.status) := by
  refine ⟨processBatch_length now envs batch h,
          fun i hi => processBatch_getElem now envs batch i hi, ?_, ?_⟩
  · intro env email werr h1 h2 h3
    unfold processEmail
    rw [h1, h2, h3]
    simp
  · intro env email werr h1 h2 h3
    refine ⟨?_, rfl⟩
    unfold processEmail
    rw [h1, h2, h3]
    simp

theorem outcome_write_failure_batch_continues_witness :
    (processBatch 9 [sentWriteFailEnv, okEnv] [demoEmail, demoSentEmail]).length = 2
  ∧ (processEmail 9 sentWriteFailEnv demoEmail).status = "failed" := by
  have h := outcome_write_failure_batch_continues 9 [sentWriteFailEnv, okEnv]
    [demoEmail, demoSentEmail] (by decide)
  exact ⟨h.1, h.2.2.1 sentWriteFailEnv demoEmail "row locked" rfl rfl rfl⟩

/- ### C3 — SMTP failure scoping -/

lemma mem_markGroupFailed {reason : String} {emails : List QueueItem} {r : QueueItem}
    (h : r ∈ markGroupFailed reason emails) :
    r.status = "failed" ∧ r.error_log = some reason := by
  unfold markGroupFailed at h
  rcases List.mem_map.mp h with ⟨e, _, rfl⟩
  exact ⟨rfl, rfl⟩

lemma processUserGroup_ok_length (sends : List (Except String String)) (now : Nat)
    (emails : List QueueItem) :
    (processUserGroup true (.ok ()) sends now emails).length
      = min emails.length sends.length := by
  simp [processUserGroup]

lemma processUserGroup_ok_get (sends : List (Except String String)) (now : Nat)
    (emails : List QueueItem) (i : Nat) (hi : i < emails.length) (hs : i < sends.length) :
    (processUserGroup true (.ok ()) sends now emails).get
        ⟨i, by rw [processUserGroup_ok_length]; omega⟩ =
      (match sends.get ⟨i, hs⟩ with
       | .ok _ =>
         { emails.get ⟨i, hi⟩ with
           status := "sent"
           attempt_count := (emails.get ⟨i, hi⟩).attempt_count + 1
           sent_at := some now }
       | .error errMsg =>
         { emails.get ⟨i, hi⟩ with
           status := "failed"
           attempt_count := (emails.get ⟨i, hi⟩).attempt_count + 1
           error_log := some errMsg }) := by
  simp [processUserGroup, List.get_eq_getElem, List.getElem_zipWith]

/-- C3: in the SMTP adapter, a failure during connection, TLS upgrade,
handshake or authentication fails the entire remaining group for that
account (every message of the group is marked failed with the connection
error), whereas a non-accepted reply to MAIL FROM, RCPT TO or DATA throws
only for the current message: each message's outcome depends only on its
own send replies, and the loop continues with the next message on the same
connection. -/
theorem smtp_failure_scoping (cfg : SmtpConfig) (srv : SmtpServerReplies)
    (sends : List (Except String String)) (now : Nat) (emails : List QueueItem)
    (replies : SmtpSendReplies) :
    (∀ msg, SmtpClient.connect cfg srv = .error msg →
      ∀ r ∈ processUserGroup true (SmtpClient.connect cfg srv) sends now emails,
        r.status = "failed" ∧ r.error_log = some ("SMTP connection error: " ++ msg))
  ∧ (srv.tcpError = none → cfg.smtp_encryption = "ssl" →
      strStartsWith srv.authReply "334" = true → strStartsWith srv.userReply "334" = true →
      strStartsWith srv.passReply "235" = false →
      SmtpClient.connect cfg srv = .error ("Authentication failed: " ++ srv.passReply))
  ∧ (∀ i (hi : i < emails.length) (hs : i < sends.length) msg,
      sends.get ⟨i, hs⟩ = .error msg →
      (processUserGroup true (.ok ()) sends now emails).get
          ⟨i, by rw [processUserGroup_ok_length]; omega⟩ =
        { emails.get ⟨i, hi⟩ with
          status := "failed"
          attempt_count := (emails.get ⟨i, hi⟩).attempt_count + 1
          error_log := some msg })
  ∧ (∀ i (hi : i < emails.length) (hs : i < sends.length) mid,
      sends.get ⟨i, hs⟩ = .ok mid →
      (processUserGroup true (.ok ()) sends now emails).get
          ⟨i, by rw [processUserGroup_ok_length]; omega⟩ =
        { emails.get ⟨i, hi⟩ with
          status := "sent"
          attempt_count := (emails.get ⟨i, hi⟩).attempt_count + 1
          sent_at := some now })
  ∧ (strStartsWith replies.mailReply "250" = true → strStartsWith replies.rcptReply "250" = false →
      ∀ fromAddr toAddr subject htmlBody fromName uuid date,
        SmtpClient.sendEmail replies fromAddr toAddr subject htmlBody fromName uuid date
          = .error ("RCPT TO failed: " ++ replies.rcptReply)) := by
  refine ⟨?_, ?_, ?_, ?_, ?_⟩
  · intro msg hconn r hr
    rw [hconn] at hr
    unfold processUserGroup at hr
    simp only [Bool.not_true, Bool.false_eq_true, if_false] at hr
    exact mem_markGroupFailed hr
  · intro htcp henc hauth huser hpass
    unfold SmtpClient.connect
    rw [htcp]
    simp only [henc, beq_self_eq_true, if_true]
    unfold smtpAuthPhase
    rw [hauth, huser, hpass]
    simp
  · intro i hi hs msg hmsg
    rw [processUserGroup_ok_get sends now emails i hi hs, hmsg]
  · intro i hi hs mid hmid
    rw [processUserGroup_ok_get sends now emails i hi hs, hmid]
  · intro hmail hrcpt fromAddr toAddr subject htmlBody fromName uuid date
    unfold SmtpClient.sendEmail
    rw [hmail, hrcpt]
    simp

/-- A concrete implicit-TLS SMTP configuration. -/
def demoSmtpConfig : SmtpConfig :=
  { smtp_host := "h"
    smtp_port := 465
    smtp_username := "u"
    smtp_password := "p"
    smtp_encryption := "ssl" }

/-- Server replies where the AUTH password is rejected. -/
def demoBadAuthReplies : SmtpServerReplies := { passReply := "535 bad credentials" }

theorem smtp_failure_scoping_witness :
    SmtpClient.connect demoSmtpConfig demoBadAuthReplies
      = .error "Authentication failed: 535 bad credentials"
  ∧ (∀ r ∈ processUserGroup true (SmtpClient.connect demoSmtpConfig demoBadAuthReplies)
        [] 77 [demoEmail],
      r.status = "failed") := by
  have h := smtp_failure_scoping demoSmtpConfig demoBadAuthReplies [] 77 [demoEmail] {}
  have hc := h.2.1 rfl rfl (by decide) (by decide) (by decide)
  refine ⟨hc, fun r hr => (h.1 "Authentication failed: 535 bad credentials" hc r hr).1⟩

/- ### C8 — the raw SMTP header set -/

/-- C8: every raw-SMTP message is transmitted with exactly the header set
From, To, Subject, Date, Message-ID, MIME-Version, Content-Type,
Content-Transfer-Encoding, a List-Unsubscribe pointing to a mailto address
at the sender's domain, and the X-Mailer tag; the Message-ID is the fresh
random UUID joined with the sender's domain; and a successful `sendEmail`
transmits exactly this payload. -/
theorem smtp_headers_complete (fromAddr toAddr subject htmlBody : String)
    (fromName : Option String) (uuid date : String) (replies : SmtpSendReplies)
    (localPart dom : String)
    (hdom : jsSplitChar (cleanFromOf fromAddr) '@' = [localPart, dom]) :
    smtpHeaders fromAddr toAddr subject fromName uuid date =
      ["From: " ++ senderDisplayOf fromName (cleanFromOf fromAddr),
       "To: " ++ toAddr,
       "Subject: " ++ subject,
       "Date: " ++ date,
       "Message-ID: <" ++ uuid ++ "@" ++ dom ++ ">",
       "MIME-Version: 1.0",
       "Content-Type: text/html; charset=UTF-8",
       "Content-Transfer-Encoding: quoted-printable",
       "List-Unsubscribe: <mailto:unsubscribe@" ++ dom ++ ">",
       "X-Mailer: SteadyMail/1.0"]
  ∧ smtpEmailContent fromAddr toAddr subject htmlBody fromName uuid date =
      String.intercalate "\r\n" (smtpHeaders fromAddr toAddr subject fromName uuid date)
        ++ "\r\n\r\n" ++ qpBodyOf htmlBody ++ "\r\n."
  ∧ (∀ mid payload,
      SmtpClient.sendEmail replies fromAddr toAddr subject htmlBody fromName uuid date
        = .ok (mid, payload) →
      mid = "<" ++ uuid ++ "@" ++ dom ++ ">"
        ∧ payload = smtpEmailContent fromAddr toAddr subject htmlBody fromName uuid date) := by
  have hd : domainStr (cleanFromOf fromAddr) = dom := by
    unfold domainStr
    rw [hdom]
    rfl
  refine ⟨?_, rfl, ?_⟩
  · simp only [smtpHeaders]
    rw [hd]
    simp only [← String.append_assoc]
    rfl
  · intro mid payload h
    unfold SmtpClient.sendEmail at h
    split at h
    · exact absurd h (by simp)
    · split at h
      · exact absurd h (by simp)
      · split at h
        · exact absurd h (by simp)
        · split at h
          · exact absurd h (by simp)
          · simp only [Except.ok.injEq, Prod.mk.injEq] at h
            rw [hd] at h
            exact ⟨h.1.symm, h.2.symm⟩

theorem smtp_headers_complete_witness :
    smtpHeaders "Bob <bob@mail.com>" "to@x.com" "Hi" none "UUID-1" "DATE" =
      ["From: bob@mail.com",
       "To: to@x.com",
       "Subject: Hi",
       "Date: DATE",
       "Message-ID: <UUID-1@mail.com>",
       "MIME-Version: 1.0",
       "Content-Type: text/html; charset=UTF-8",
       "Content-Transfer-Encoding: quoted-printable",
       "List-Unsubscribe: <mailto:unsubscribe@mail.com>",
       "X-Mailer: SteadyMail/1.0"] := by
  have h := (smtp_headers_complete "Bob <bob@mail.com>" "to@x.com" "Hi" "<p>b</p>" none
    "UUID-1" "DATE" {} "bob" "mail.com" (by decide)).1
  rw [h]
  rfl

/- ### C5 — SigV4 request signing -/

/-- C5: the signer derives the signing key by chained HMAC-SHA256 over the
date stamp, region, service and the suffix `aws4_request`, seeded from
`AWS4` + secret; the final signature is the hex-encoded HMAC of the
string-to-sign (algorithm id, timestamp, credential scope, SHA-256 of the
canonical request) under that key and is placed in the Authorization
header; and for a fixed (secret, date, region, service, canonical-request)
tuple the signature is always the same — in particular it does not depend
on the access key id, and any two requests with the same canonical request
sign identically. -/
theorem sigv4_signature_follows_spec (C : CryptoPrimitives)
    (method url contentTypeHeader body akid secret region service amzDate : String) :
    awsSignature C method url contentTypeHeader body secret region service amzDate =
      specSigV4Signature C secret (String.mk (amzDate.toList.take 8)) region service amzDate
        (canonicalRequestOf C method url contentTypeHeader body amzDate)
  ∧ (signRequest C method url contentTypeHeader body akid secret region service amzDate).authorization =
      "AWS4-HMAC-SHA256 Credential=" ++ akid ++ "/" ++ String.mk (amzDate.toList.take 8) ++ "/" ++ region ++ "/"
        ++ service ++ "/aws4_request, SignedHeaders=content-type;host;x-amz-date, Signature="
        ++ awsSignature C method url contentTypeHeader body secret region service amzDate
  ∧ (∀ method2 url2 ct2 body2,
      canonicalRequestOf C method2 url2 ct2 body2 amzDate
        = canonicalRequestOf C method url contentTypeHeader body amzDate →
      awsSignature C method2 url2 ct2 body2 secret region service amzDate
        = awsSignature C method url contentTypeHeader body secret region service amzDate) := by
  refine ⟨awsSignature_eq_spec C method url contentTypeHeader body secret region service amzDate,
          ?_, ?_⟩
  · unfold signRequest
    simp [String.append_assoc]
  · intro method2 url2 ct2 body2 hcan
    rw [awsSignature_eq_spec, awsSignature_eq_spec, hcan]

/-- Trivial byte-level primitives used only to instantiate the abstract
crypto interface in the witness. -/
def demoCrypto : CryptoPrimitives :=
  { sha256Raw := fun bs => bs
    hmacRaw := fun key msg => key ++ msg }

theorem sigv4_signature_follows_spec_witness :
    canonicalRequestOf demoCrypto "POST" "https://email.eu-west-1.amazonaws.com/" "ct" "b" "20260101T000000Z"
        = canonicalRequestOf demoCrypto "POST" "https://email.eu-west-1.amazonaws.com/" "ct" "b" "20260101T000000Z"
  ∧ awsSignature demoCrypto "POST" "https://email.eu-west-1.amazonaws.com/" "ct" "b"
        "sek" "eu-west-1" "ses" "20260101T000000Z"
      = specSigV4Signature demoCrypto "sek" "20260101" "eu-west-1" "ses" "20260101T000000Z"
        (canonicalRequestOf demoCrypto "POST" "https://email.eu-west-1.amazonaws.com/" "ct" "b" "20260101T000000Z") := by
  have h := sigv4_signature_follows_spec demoCrypto "POST" "https://email.eu-west-1.amazonaws.com/"
    "ct" "b" "AKID" "sek" "eu-west-1" "ses" "20260101T000000Z"
  have h2 := h.2.2 "POST" "https://email.eu-west-1.amazonaws.com/" "ct" "b" rfl
  refine ⟨rfl, ?_⟩
  have h1 := h.1
  have hds : String.mk ("20260101T000000Z".toList.take 8) = "20260101" := by decide
  rw [hds] at h1
  exact h1

/- ### C6 — the tracking injector -/

/-- C6: the tracking injector appends the 1×1 beacon image reference
carrying the message id and then rewrites anchor-tag href values to the
click-redirect endpoint carrying the message id and the URL-encoded
original destination; matches whose URL is already a tracking endpoint or
a `mailto:` link are emitted verbatim; the transformation is a pure
function of the input HTML and message id (identical inputs give
byte-identical output) and text outside the matched anchor tags is carried
over unchanged. -/
theorem tracking_injection_correct (body emailId supabaseUrl html : String) :
    buildTrackedBody body emailId supabaseUrl =
      rewriteLinksForTracking (body ++ trackingPixelImg emailId supabaseUrl) emailId supabaseUrl
  ∧ rewriteLinksForTracking html emailId supabaseUrl =
      String.join ((scanAnchors html.toList.length html.toList).map (renderSeg emailId supabaseUrl))
  ∧ (∀ m : AnchorMatchData, isSkippedUrl (String.mk m.url) = true →
      renderSeg emailId supabaseUrl (HtmlSeg.anchor m) = String.mk (matchText m))
  ∧ (∀ m : AnchorMatchData, isSkippedUrl (String.mk m.url) = false →
      renderSeg emailId supabaseUrl (HtmlSeg.anchor m) =
        "<a " ++ String.mk m.before
          ++ trackClickUrl supabaseUrl emailId (String.mk m.url)
          ++ String.mk m.after ++ ">")
  ∧ ((scanAnchors html.toList.length html.toList).map segText).flatten = html.toList
  ∧ (∀ c : Char, renderSeg emailId supabaseUrl (HtmlSeg.chr c) = String.mk [c])
  ∧ (∀ html2 id2 base2, html2 = html → id2 = emailId → base2 = supabaseUrl →
      rewriteLinksForTracking html2 id2 base2
        = rewriteLinksForTracking html emailId supabaseUrl) := by
  refine ⟨rfl, rfl, ?_, ?_,
    scanAnchors_text html.toList.length html.toList (Nat.le_refl _), fun c => rfl, ?_⟩
  · intro m hskip
    simp only [renderSeg, hskip]
    simp
  · intro m hskip
    simp only [renderSeg, hskip]
    simp
  · intro h2 i2 b2 e1 e2 e3
    rw [e1, e2, e3]

/-- A concrete anchor match whose URL is a `mailto:` link. -/
def demoMailtoAnchor : AnchorMatchData :=
  { aChar := 'a'
    ws := [' ']
    before := "href=\"".toList
    url := "mailto:x@y".toList
    after := ['"']
    rest := [] }

theorem tracking_injection_correct_witness :
    isSkippedUrl (String.mk demoMailtoAnchor.url) = true
  ∧ renderSeg "m1" "https://sb" (HtmlSeg.anchor demoMailtoAnchor)
      = String.mk (matchText demoMailtoAnchor) :=
  ⟨by decide,
   (tracking_injection_correct "" "m1" "https://sb" "").2.2.1 demoMailtoAnchor (by decide)⟩

/- ### C10 — URLs merely containing the tracking substrings are skipped -/

/-- C10: any anchor match whose href value contains the substring
`track-open` or `track-click` anywhere in it — including ordinary
third-party destinations that merely contain those substrings — is emitted
verbatim by the rewriter and never wrapped in the click-redirect endpoint;
shown generally for the replace callback and concretely on a third-party
URL containing `track-click`. -/
theorem trackish_urls_never_rewritten (emailId supabaseUrl : String) :
    (∀ m : AnchorMatchData,
      (strIncludes (String.mk m.url) "track-open" = true ∨
       strIncludes (String.mk m.url) "track-click" = true) →
      renderSeg emailId supabaseUrl (HtmlSeg.anchor m) = String.mk (matchText m))
  ∧ rewriteLinksForTracking "<a href=\"https://example.com/track-click-stats\">x</a>"
      "m1" "https://sb"
      = "<a href=\"https://example.com/track-click-stats\">x</a>" := by
  refine ⟨?_, ?_⟩
  · intro m hm
    have hskip : isSkippedUrl (String.mk m.url) = true := by
      unfold isSkippedUrl
      rcases hm with hm | hm <;> rw [hm] <;> simp
    simp only [renderSeg, hskip]
    simp
  · decide

theorem trackish_urls_never_rewritten_witness :
    (strIncludes (String.mk ("https://example.com/track-click-stats".toList)) "track-click" = true)
  ∧ renderSeg "m1" "https://sb"
      (HtmlSeg.anchor
        { aChar := 'a'
          ws := [' ']
          before := "href=\"".toList
          url := "https://example.com/track-click-stats".toList
          after := ['"']
          rest := [] })
      = String.mk (matchText
        { aChar := 'a'
          ws := [' ']
          before := "href=\"".toList
          url := "https://example.com/track-click-stats".toList
          after := ['"']
          rest := [] }) :=
  ⟨by decide,
   (trackish_urls_never_rewritten "m1" "https://sb").1
     { aChar := 'a'
       ws := [' ']
       before := "href=\"".toList
       url := "https://example.com/track-click-stats".toList
       after := ['"']
       rest := [] }
     (Or.inr (by decide))⟩
